import Mathlib

/-!
Verification of the morphoposition monitors.

This file gives a shallow embedding of the decision logic of the repository:
the position risk calculators (`calculateLtv`, `calculateLiquidationPrice`,
`calculateBufferPercentage`), the share-to-asset conversion inlined in
`getPositionData`, the vault reward aggregation (`calculateTotalRewardsApr`),
the vault comparison of `fetchAndSaveVaults`, the alert-cooldown state
machine (`logAlert`), the per-cycle alert decision of
`VaultMonitor.monitorVaults`, and the `setInterval` polling schedule,
together with theorems about their behaviour.
-/

/--
A JavaScript number as produced by the risk calculators: either a finite
value (modelled exactly as a rational) or one of the special values
`Infinity`, `-Infinity`, `NaN` that arise from dividing a finite number by
zero.
-/
inductive JSVal where
  | finite (q : ℚ)
  | inf
  | negInf
  | nan
  deriving DecidableEq, Repr

/--
JavaScript division of two finite numbers: division by zero yields
`Infinity`, `-Infinity` or `NaN` according to the sign of the numerator,
otherwise the exact quotient.
-/
def jsDiv (n d : ℚ) : JSVal :=
  if d = 0 then
    if 0 < n then JSVal.inf else if n < 0 then JSVal.negInf else JSVal.nan
  else JSVal.finite (n / d)

/--
The `data` record returned by `MorphoMonitor.getPositionData` and consumed by
the three risk calculators: borrowed amount, collateral amount, the two
oracle prices and the market liquidation LTV, all finite decimals.
-/
structure MarketPosition where
  borrowedAmount : ℚ
  collateralAmount : ℚ
  collateralPrice : ℚ
  borrowPrice : ℚ
  lltv : ℚ
  deriving DecidableEq, Repr

/--
Embedding of `MorphoMonitor.calculateLtv` (identical in `morphomonitor.js`
and the second monitor variant): returns `0` when `collateralAmount` is `0`,
otherwise `(borrowedAmount * borrowPrice) / (collateralAmount *
collateralPrice)` with JavaScript division semantics.
-/
def calculateLtv (data : MarketPosition) : JSVal :=
  if data.collateralAmount = 0 then JSVal.finite 0
  else
    jsDiv (data.borrowedAmount * data.borrowPrice)
      (data.collateralAmount * data.collateralPrice)

/--
Embedding of `MorphoMonitor.calculateLiquidationPrice`: returns `0` when
`borrowedAmount` is `0`, otherwise `(borrowedAmount * borrowPrice) /
(collateralAmount * lltv)` with JavaScript division semantics.  Note the
only guard in the source is `borrowedAmount === 0`; the denominator
`collateralAmount * lltv` is not guarded.
-/
def calculateLiquidationPrice (data : MarketPosition) : JSVal :=
  if data.borrowedAmount = 0 then JSVal.finite 0
  else
    jsDiv (data.borrowedAmount * data.borrowPrice)
      (data.collateralAmount * data.lltv)

/--
Embedding of `MorphoMonitor.calculateBufferPercentage`: returns `100` when
`lltv` is `0`, otherwise `100 * (1 - currentLtv / lltv)`.
-/
def calculateBufferPercentage (currentLtv lltv : ℚ) : JSVal :=
  if lltv = 0 then JSVal.finite 100
  else JSVal.finite (100 * (1 - currentLtv / lltv))

/--
Embedding of the share-to-asset conversion inlined in
`MorphoMonitor.getPositionData` (the `toAssetsUp` logic of Morpho's
SharesMathLib, reimplemented there with BigInt): with
`VIRTUAL_SHARES = 1000000` and `VIRTUAL_ASSETS = 1`,
`numerator = shares * (totalAssets + 1)`,
`denominator = totalShares + 1000000`, result
`(numerator + denominator - 1) / denominator` with integer division.
All chain values are non-negative, so the embedding uses `ℕ`.
-/
def toAssetsUp (shares totalAssets totalShares : ℕ) : ℕ :=
  (shares * (totalAssets + 1) + (totalShares + 1000000) - 1)
    / (totalShares + 1000000)

/--
The round-up integer division formula `(n + d - 1) / d` computes exactly the
ceiling of the rational `n / d` for every positive denominator.
-/
lemma add_pred_div_eq_ceil (n d : ℕ) (hd : 0 < d) :
    (((n + d - 1) / d : ℕ) : ℤ) = ⌈(n : ℚ) / (d : ℚ)⌉ := by
  have hdq : (0 : ℚ) < (d : ℚ) := by exact_mod_cast hd
  have hle : 1 ≤ n + d := by omega
  set q : ℕ := (n + d - 1) / d with hq
  have hqcast : (((q : ℕ) : ℤ) : ℚ) = (q : ℚ) := by push_cast; ring
  symm
  rw [Int.ceil_eq_iff]
  rw [hqcast]
  constructor
  · -- lower bound: ↑q - 1 < n / d
    have h1n : q * d ≤ n + d - 1 := Nat.div_mul_le_self _ _
    have h1 : (q : ℚ) * (d : ℚ) ≤ (n : ℚ) + (d : ℚ) - 1 := by
      have hcast := (Nat.cast_le (α := ℚ)).2 h1n
      rwa [Nat.cast_mul, Nat.cast_sub hle, Nat.cast_add, Nat.cast_one] at hcast
    rw [lt_div_iff₀ hdq]
    nlinarith
  · -- upper bound: n / d ≤ ↑q
    have h2n : n ≤ d * q := by
      have hdm := Nat.div_add_mod (n + d - 1) d
      have hm : (n + d - 1) % d < d := Nat.mod_lt _ hd
      rw [← hq] at hdm
      set m := d * q with hm'
      omega
    have h2 : (n : ℚ) ≤ (q : ℚ) * (d : ℚ) := by
      have hcast := (Nat.cast_le (α := ℚ)).2 h2n
      rw [Nat.cast_mul] at hcast
      linarith [hcast]
    rw [div_le_iff₀ hdq]
    linarith

/--
Claim C2: for all non-negative integers `shares`, `totalAssets`,
`totalShares`, the conversion computes exactly
`ceil(shares * (totalAssets + 1) / (totalShares + 1000000))` with exact
integer arithmetic; in particular `shares = 0` yields `0`, the result is at
least the exact rational value, and exceeds it by less than one unit.
-/
theorem toAssetsUp_exact_ceil (shares totalAssets totalShares : ℕ) :
    toAssetsUp 0 totalAssets totalShares = 0 ∧
    ((toAssetsUp shares totalAssets totalShares : ℤ)
      = ⌈((shares : ℚ) * ((totalAssets : ℚ) + 1))
          / ((totalShares : ℚ) + 1000000)⌉) ∧
    ((shares : ℚ) * ((totalAssets : ℚ) + 1)) / ((totalShares : ℚ) + 1000000)
      ≤ (toAssetsUp shares totalAssets totalShares : ℚ) ∧
    (toAssetsUp shares totalAssets totalShares : ℚ)
      - ((shares : ℚ) * ((totalAssets : ℚ) + 1))
          / ((totalShares : ℚ) + 1000000) < 1 := by
  have hd : 0 < totalShares + 1000000 := by omega
  have hceil :
      ((toAssetsUp shares totalAssets totalShares : ℕ) : ℤ)
        = ⌈((shares * (totalAssets + 1) : ℕ) : ℚ)
            / ((totalShares + 1000000 : ℕ) : ℚ)⌉ := by
    unfold toAssetsUp
    exact add_pred_div_eq_ceil (shares * (totalAssets + 1))
      (totalShares + 1000000) hd
  have hcast :
      ((shares * (totalAssets + 1) : ℕ) : ℚ)
          / ((totalShares + 1000000 : ℕ) : ℚ)
        = ((shares : ℚ) * ((totalAssets : ℚ) + 1))
            / ((totalShares : ℚ) + 1000000) := by
    push_cast
    ring
  rw [hcast] at hceil
  refine ⟨?_, hceil, ?_, ?_⟩
  · unfold toAssetsUp
    apply Nat.div_eq_of_lt
    omega
  · have h := Int.le_ceil
      (((shares : ℚ) * ((totalAssets : ℚ) + 1)) / ((totalShares : ℚ) + 1000000))
    rw [← hceil] at h
    exact_mod_cast h
  · have h := Int.ceil_lt_add_one
      (((shares : ℚ) * ((totalAssets : ℚ) + 1)) / ((totalShares : ℚ) + 1000000))
    rw [← hceil] at h
    have h2 : ((toAssetsUp shares totalAssets totalShares : ℕ) : ℚ)
        < ((shares : ℚ) * ((totalAssets : ℚ) + 1))
            / ((totalShares : ℚ) + 1000000) + 1 := by exact_mod_cast h
    linarith

/--
Claim C1 (amended): all three risk calculators are total and return the
documented sentinels — `calculateLtv` returns `0` when
`collateralAmount = 0`, `calculateLiquidationPrice` returns `0` when
`borrowedAmount = 0`, `calculateBufferPercentage` returns `100` when
`lltv = 0` — and return finite values whenever the relevant denominator is
nonzero; however `calculateLiquidationPrice` returns positive `Infinity`
(not a sentinel) when `borrowedAmount * borrowPrice > 0` while
`collateralAmount * lltv = 0`.
-/
theorem riskCalculators_sentinels (data : MarketPosition) :
    (data.collateralAmount = 0 → calculateLtv data = JSVal.finite 0) ∧
    (data.borrowedAmount = 0 →
      calculateLiquidationPrice data = JSVal.finite 0) ∧
    (∀ currentLtv lv : ℚ, lv = 0 →
      calculateBufferPercentage currentLtv lv = JSVal.finite 100) ∧
    (0 < data.borrowedAmount * data.borrowPrice →
      data.collateralAmount * data.lltv = 0 →
      calculateLiquidationPrice data = JSVal.inf) ∧
    (data.collateralAmount * data.collateralPrice ≠ 0 →
      ∃ q, calculateLtv data = JSVal.finite q) ∧
    (data.collateralAmount * data.lltv ≠ 0 →
      ∃ q, calculateLiquidationPrice data = JSVal.finite q) ∧
    (∀ currentLtv lv : ℚ, ∃ q,
      calculateBufferPercentage currentLtv lv = JSVal.finite q) := by
  refine ⟨?_, ?_, ?_, ?_, ?_, ?_, ?_⟩
  · intro h
    simp [calculateLtv, h]
  · intro h
    simp [calculateLiquidationPrice, h]
  · intro currentLtv lv h
    simp [calculateBufferPercentage, h]
  · intro hpos hden
    have hb : data.borrowedAmount ≠ 0 := by
      intro hb0
      rw [hb0, zero_mul] at hpos
      exact lt_irrefl 0 hpos
    simp only [calculateLiquidationPrice, if_neg hb, jsDiv, if_pos hden,
      if_pos hpos]
  · intro hden
    have hc : data.collateralAmount ≠ 0 := fun h => hden (by rw [h, zero_mul])
    refine ⟨data.borrowedAmount * data.borrowPrice
      / (data.collateralAmount * data.collateralPrice), ?_⟩
    simp only [calculateLtv, if_neg hc, jsDiv, if_neg hden]
  · intro hden
    by_cases hb : data.borrowedAmount = 0
    · exact ⟨0, by simp [calculateLiquidationPrice, hb]⟩
    · refine ⟨data.borrowedAmount * data.borrowPrice
        / (data.collateralAmount * data.lltv), ?_⟩
      simp only [calculateLiquidationPrice, if_neg hb, jsDiv, if_neg hden]
  · intro currentLtv lv
    by_cases h : lv = 0
    · exact ⟨100, by simp [calculateBufferPercentage, h]⟩
    · exact ⟨100 * (1 - currentLtv / lv),
        by simp [calculateBufferPercentage, h]⟩

/--
Witness for claim C1: the sentinels, the `Infinity` case and the finiteness
cases at concrete positions.
-/
theorem riskCalculators_sentinels_witness :
    calculateLtv
      { borrowedAmount := 1000, collateralAmount := 0, collateralPrice := 2000,
        borrowPrice := 1, lltv := 4/5 } = JSVal.finite 0 ∧
    calculateLiquidationPrice
      { borrowedAmount := 0, collateralAmount := 1, collateralPrice := 2000,
        borrowPrice := 1, lltv := 4/5 } = JSVal.finite 0 ∧
    calculateBufferPercentage (1/2) 0 = JSVal.finite 100 ∧
    calculateLiquidationPrice
      { borrowedAmount := 1000, collateralAmount := 0, collateralPrice := 2000,
        borrowPrice := 1, lltv := 4/5 } = JSVal.inf ∧
    (∃ q, calculateLtv
      { borrowedAmount := 1000, collateralAmount := 1, collateralPrice := 2000,
        borrowPrice := 1, lltv := 4/5 } = JSVal.finite q) := by
  refine ⟨(riskCalculators_sentinels _).1 rfl,
    (riskCalculators_sentinels
      { borrowedAmount := 0, collateralAmount := 1, collateralPrice := 2000,
        borrowPrice := 1, lltv := 4/5 }).2.1 rfl,
    (riskCalculators_sentinels
      { borrowedAmount := 0, collateralAmount := 1, collateralPrice := 2000,
        borrowPrice := 1, lltv := 4/5 }).2.2.1 (1/2) 0 rfl,
    (riskCalculators_sentinels _).2.2.2.1 (by norm_num) (by norm_num),
    (riskCalculators_sentinels _).2.2.2.2.1 (by norm_num)⟩

/--
Counterexample for claim C1 as stated: with `borrowedAmount = 1000`,
`borrowPrice = 1`, `collateralAmount = 0` and `lltv = 4/5`,
`calculateLiquidationPrice` returns `Infinity` rather than a finite sentinel:
the case `collateralAmount = 0` with `borrowedAmount > 0` is not guarded.
-/
theorem calculateLiquidationPrice_inf_at_zero_collateral :
    calculateLiquidationPrice
      { borrowedAmount := 1000, collateralAmount := 0, collateralPrice := 2000,
        borrowPrice := 1, lltv := 4/5 } = JSVal.inf := by
  norm_num [calculateLiquidationPrice, jsDiv]

/--
One entry of a `rewards` array in the vault GraphQL data: the `supplyApr`
field may be absent or null, modelled as `Option`.
-/
structure RewardEntry where
  supplyApr : Option ℚ
  deriving DecidableEq, Repr

/--
The `market.state` subtree of an allocation as consumed by
`calculateTotalRewardsApr`: only the `rewards` array matters there; a
missing `state` or `rewards` branch is read through `safeGet` with default
`[]`, so it is modelled as the empty list.
-/
structure MarketEntry where
  rewards : List RewardEntry
  deriving DecidableEq, Repr

/--
One entry of `vault.state.allocation`: `supplyAssetsUsd` may be absent or
null, and `market` may be null.
-/
structure AllocationEntry where
  supplyAssetsUsd : Option ℚ
  market : Option MarketEntry
  deriving DecidableEq, Repr

/--
The `vault.state` subtree consumed by `calculateTotalRewardsApr`: the direct
`rewards` array and the `allocation` array (each read through `safeGet` with
default `[]` in the source, hence plain lists here).
-/
structure VaultState where
  rewards : List RewardEntry
  allocation : List AllocationEntry
  deriving DecidableEq, Repr

/-- A vault record as passed to `calculateTotalRewardsApr`. -/
structure Vault where
  state : VaultState
  deriving DecidableEq, Repr

/--
One step of the direct-rewards loop of `calculateTotalRewardsApr`:
`if (reward.supplyApr) totalRewardsApr += parseFloat(reward.supplyApr)` —
an absent, null or zero `supplyApr` is falsy and skipped.
-/
def directRewardStep (acc : ℚ) (r : RewardEntry) : ℚ :=
  match r.supplyApr with
  | some v => if v = 0 then acc else acc + v
  | none => acc

/--
One step of the total-allocated-assets loop:
`if (allocation.supplyAssetsUsd) totalAllocatedAssets += parseFloat(...)`.
-/
def allocatedUsdStep (acc : ℚ) (a : AllocationEntry) : ℚ :=
  match a.supplyAssetsUsd with
  | some v => if v = 0 then acc else acc + v
  | none => acc

/--
One step of the inner market-rewards loop:
`if (reward.supplyApr) totalRewardsApr += parseFloat(reward.supplyApr) * weight`.
-/
def marketRewardStep (weight : ℚ) (acc : ℚ) (r : RewardEntry) : ℚ :=
  match r.supplyApr with
  | some v => if v = 0 then acc else acc + v * weight
  | none => acc

/--
One step of the weighted-allocation loop of `calculateTotalRewardsApr`:
entered only `if (allocation.supplyAssetsUsd && allocation.market)`, with
`weight = parseFloat(allocation.supplyAssetsUsd) / totalAllocatedAssets`.
-/
def allocationRewardStep (total : ℚ) (acc : ℚ) (a : AllocationEntry) : ℚ :=
  match a.supplyAssetsUsd, a.market with
  | some usd, some m =>
      if usd = 0 then acc
      else m.rewards.foldl (marketRewardStep (usd / total)) acc
  | some _, none => acc
  | none, _ => acc

/--
Embedding of `calculateTotalRewardsApr` (identical in `src/vaults.js` and
the vault monitor): sums direct vault rewards, then — when the total
allocated USD is positive — adds each allocation's market rewards weighted
by the allocation's share of total allocated USD.
-/
def calculateTotalRewardsApr (vault : Vault) : ℚ :=
  let afterDirect := vault.state.rewards.foldl directRewardStep 0
  let totalAllocatedAssets := vault.state.allocation.foldl allocatedUsdStep 0
  if 0 < totalAllocatedAssets then
    vault.state.allocation.foldl (allocationRewardStep totalAllocatedAssets)
      afterDirect
  else afterDirect

/--
Specification-side definition, following the spec's words: the sum of
`supplyApr` over `directRewards`, entries with missing `supplyApr`
contributing `0`.
-/
def specDirectRewardsSum (vault : Vault) : ℚ :=
  (vault.state.rewards.map (fun r => r.supplyApr.getD 0)).sum

/--
Specification-side definition: `totalAllocatedUsd`, the sum of
`supplyAssetsUsd` over all allocations, missing values contributing `0`.
-/
def specTotalAllocatedUsd (vault : Vault) : ℚ :=
  (vault.state.allocation.map (fun a => a.supplyAssetsUsd.getD 0)).sum

/-- The market reward entries of an allocation; none when `market` is null. -/
def specMarketRewardsOf (a : AllocationEntry) : List RewardEntry :=
  match a.market with
  | some m => m.rewards
  | none => []

/--
Specification-side definition: when `totalAllocatedUsd` is positive, the sum
over allocations and their market reward entries of
`supplyApr * (supplyAssetsUsd / totalAllocatedUsd)`; `0` when
`totalAllocatedUsd = 0`.
-/
def specWeightedMarketRewards (vault : Vault) : ℚ :=
  if 0 < specTotalAllocatedUsd vault then
    (vault.state.allocation.map (fun a =>
      ((specMarketRewardsOf a).map (fun r =>
        r.supplyApr.getD 0
          * (a.supplyAssetsUsd.getD 0 / specTotalAllocatedUsd vault))).sum)).sum
  else 0

lemma foldl_directRewardStep (l : List RewardEntry) (init : ℚ) :
    l.foldl directRewardStep init
      = init + (l.map (fun r => r.supplyApr.getD 0)).sum := by
  induction l generalizing init with
  | nil => simp
  | cons r t ih =>
    simp only [List.foldl_cons, List.map_cons, List.sum_cons, ih]
    cases h : r.supplyApr with
    | none => simp [directRewardStep, h]
    | some v =>
      by_cases hv : v = 0
      · simp [directRewardStep, h, hv]
      · simp only [directRewardStep, h, if_neg hv, Option.getD_some]
        ring

lemma foldl_allocatedUsdStep (l : List AllocationEntry) (init : ℚ) :
    l.foldl allocatedUsdStep init
      = init + (l.map (fun a => a.supplyAssetsUsd.getD 0)).sum := by
  induction l generalizing init with
  | nil => simp
  | cons a t ih =>
    simp only [List.foldl_cons, List.map_cons, List.sum_cons, ih]
    cases h : a.supplyAssetsUsd with
    | none => simp [allocatedUsdStep, h]
    | some v =>
      by_cases hv : v = 0
      · simp [allocatedUsdStep, h, hv]
      · simp only [allocatedUsdStep, h, if_neg hv, Option.getD_some]
        ring

lemma foldl_marketRewardStep (w : ℚ) (l : List RewardEntry) (init : ℚ) :
    l.foldl (marketRewardStep w) init
      = init + (l.map (fun r => r.supplyApr.getD 0 * w)).sum := by
  induction l generalizing init with
  | nil => simp
  | cons r t ih =>
    simp only [List.foldl_cons, List.map_cons, List.sum_cons, ih]
    cases h : r.supplyApr with
    | none => simp [marketRewardStep, h]
    | some v =>
      by_cases hv : v = 0
      · simp [marketRewardStep, h, hv]
      · simp only [marketRewardStep, h, if_neg hv, Option.getD_some]
        ring

lemma foldl_allocationRewardStep (total : ℚ) (l : List AllocationEntry)
    (init : ℚ) :
    l.foldl (allocationRewardStep total) init
      = init + (l.map (fun a =>
          ((specMarketRewardsOf a).map (fun r =>
            r.supplyApr.getD 0 * (a.supplyAssetsUsd.getD 0 / total))).sum)).sum := by
  induction l generalizing init with
  | nil => simp
  | cons a t ih =>
    simp only [List.foldl_cons, List.map_cons, List.sum_cons, ih]
    cases husd : a.supplyAssetsUsd with
    | none =>
      cases hm : a.market with
      | none => simp [allocationRewardStep, husd, hm, specMarketRewardsOf]
      | some m =>
        simp [allocationRewardStep, husd, hm, specMarketRewardsOf]
    | some usd =>
      cases hm : a.market with
      | none => simp [allocationRewardStep, husd, hm, specMarketRewardsOf]
      | some m =>
        by_cases hu : usd = 0
        · simp [allocationRewardStep, husd, hm, hu, specMarketRewardsOf]
        · simp only [allocationRewardStep, husd, hm, if_neg hu,
            foldl_marketRewardStep, specMarketRewardsOf, Option.getD_some]
          ring

/--
Decomposition of `calculateTotalRewardsApr`: the imperative accumulation
equals the direct-rewards sum plus the (guarded) weighted market-rewards
sum.
-/
lemma calculateTotalRewardsApr_eq (vault : Vault) :
    calculateTotalRewardsApr vault
      = specDirectRewardsSum vault + specWeightedMarketRewards vault := by
  unfold calculateTotalRewardsApr specWeightedMarketRewards
  have htot : vault.state.allocation.foldl allocatedUsdStep 0
      = specTotalAllocatedUsd vault := by
    rw [foldl_allocatedUsdStep]
    simp [specTotalAllocatedUsd]
  rw [htot]
  have hdir : vault.state.rewards.foldl directRewardStep 0
      = specDirectRewardsSum vault := by
    rw [foldl_directRewardStep]
    simp [specDirectRewardsSum]
  rw [hdir]
  by_cases ht : 0 < specTotalAllocatedUsd vault
  · rw [if_pos ht, if_pos ht, foldl_allocationRewardStep]
  · rw [if_neg ht, if_neg ht, add_zero]

/--
A vault with no direct rewards and two allocations of equal USD weight
(100 each) whose markets carry single rewards of 2% and 4% respectively.
-/
def equalWeightVault : Vault :=
  { state :=
    { rewards := []
      allocation :=
        [ { supplyAssetsUsd := some 100
            market := some { rewards := [{ supplyApr := some (2/100) }] } }
        , { supplyAssetsUsd := some 100
            market := some { rewards := [{ supplyApr := some (4/100) }] } } ] } }

/--
Claim C3: `calculateTotalRewardsApr` returns the sum of `supplyApr` over
`directRewards` (missing entries contributing `0`) plus, when the total
allocated USD is positive, the sum over allocations and their market reward
entries of `supplyApr * (supplyAssetsUsd / totalAllocatedUsd)`; the
market-level contribution is `0` when the total allocated USD is `0`.  For
two allocations of equal USD weight with market rewards 2% and 4%, the
result is exactly 3%.
-/
theorem calculateTotalRewardsApr_spec (vault : Vault) :
    calculateTotalRewardsApr vault
      = specDirectRewardsSum vault + specWeightedMarketRewards vault ∧
    calculateTotalRewardsApr equalWeightVault = 3/100 := by
  refine ⟨calculateTotalRewardsApr_eq vault, ?_⟩
  show calculateTotalRewardsApr equalWeightVault = 3/100
  simp only [calculateTotalRewardsApr, equalWeightVault, List.foldl,
    directRewardStep, allocatedUsdStep, allocationRewardStep,
    marketRewardStep]
  norm_num

/--
A vault with non-negative reward APRs but a negative recorded
`supplyAssetsUsd` in one allocation.
-/
def negativeUsdVault : Vault :=
  { state :=
    { rewards := []
      allocation :=
        [ { supplyAssetsUsd := some (-5)
            market := some { rewards := [{ supplyApr := some (4/100) }] } }
        , { supplyAssetsUsd := some 10
            market := some { rewards := [] } } ] } }

/--
All `supplyApr` inputs of a vault (direct rewards and market-level rewards)
are non-negative, missing values reading as `0`.
-/
def allInputAprsNonneg (vault : Vault) : Prop :=
  (∀ r ∈ vault.state.rewards, 0 ≤ r.supplyApr.getD 0) ∧
  (∀ a ∈ vault.state.allocation, ∀ m, a.market = some m →
    ∀ r ∈ m.rewards, 0 ≤ r.supplyApr.getD 0)

/--
Counterexample for claim C9 as stated: in `negativeUsdVault` every input APR
is non-negative, yet `calculateTotalRewardsApr` returns `-1/25 < 0`: the
allocation with `supplyAssetsUsd = -5` receives a negative weight
(`-5 / 5 = -1`) while the total allocated USD stays positive.
-/
theorem calculateTotalRewardsApr_neg_example :
    allInputAprsNonneg negativeUsdVault ∧
    calculateTotalRewardsApr negativeUsdVault < 0 := by
  constructor
  · constructor
    · intro r hr
      simp [negativeUsdVault] at hr
    · intro a ha m hm r hr
      simp only [negativeUsdVault, List.mem_cons, List.not_mem_nil,
        or_false] at ha
      rcases ha with rfl | rfl
      · simp only [Option.some_inj] at hm
        subst hm
        simp only [List.mem_cons, List.not_mem_nil, or_false] at hr
        subst hr
        norm_num
      · simp only [Option.some_inj] at hm
        subst hm
        simp at hr
  · simp only [calculateTotalRewardsApr, negativeUsdVault, List.foldl,
      directRewardStep, allocatedUsdStep, allocationRewardStep,
      marketRewardStep]
    norm_num

/--
Claim C9 (amended): for every vault snapshot in which all input APRs are
non-negative AND all recorded `supplyAssetsUsd` values are non-negative, the
computed `rewardsApr` returned by `calculateTotalRewardsApr` is
non-negative.
-/
theorem calculateTotalRewardsApr_nonneg (vault : Vault)
    (hApr : allInputAprsNonneg vault)
    (hUsd : ∀ a ∈ vault.state.allocation, 0 ≤ a.supplyAssetsUsd.getD 0) :
    0 ≤ calculateTotalRewardsApr vault := by
  rw [calculateTotalRewardsApr_eq]
  apply add_nonneg
  · apply List.sum_nonneg
    intro x hx
    rcases List.mem_map.1 hx with ⟨r, hr, rfl⟩
    exact hApr.1 r hr
  · unfold specWeightedMarketRewards
    split_ifs with ht
    · apply List.sum_nonneg
      intro x hx
      rcases List.mem_map.1 hx with ⟨a, ha, rfl⟩
      apply List.sum_nonneg
      intro y hy
      rcases List.mem_map.1 hy with ⟨r, hr, rfl⟩
      apply mul_nonneg
      · cases hm : a.market with
        | none => simp [specMarketRewardsOf, hm] at hr
        | some m =>
          refine hApr.2 a ha m hm r ?_
          simpa [specMarketRewardsOf, hm] using hr
      · exact div_nonneg (hUsd a ha) (le_of_lt ht)
    · exact le_refl 0

/--
A vault with one direct reward of 1% and one allocation of 50 USD whose
market carries a reward of 2%: all APRs and USD amounts non-negative.
-/
def nonnegVault : Vault :=
  { state :=
    { rewards := [{ supplyApr := some (1/100) }]
      allocation :=
        [ { supplyAssetsUsd := some 50
            market := some { rewards := [{ supplyApr := some (2/100) }] } } ] } }

/--
Witness for claim C9 (amended): at `nonnegVault` the hypotheses hold and the
rewards APR is non-negative.
-/
theorem calculateTotalRewardsApr_nonneg_witness :
    allInputAprsNonneg nonnegVault ∧
    (∀ a ∈ nonnegVault.state.allocation, 0 ≤ a.supplyAssetsUsd.getD 0) ∧
    0 ≤ calculateTotalRewardsApr nonnegVault := by
  have hApr : allInputAprsNonneg nonnegVault := by
    constructor
    · intro r hr
      simp only [nonnegVault, List.mem_cons, List.not_mem_nil,
        or_false] at hr
      subst hr
      norm_num
    · intro a ha m hm r hr
      simp only [nonnegVault, List.mem_cons, List.not_mem_nil,
        or_false] at ha
      subst ha
      simp only [Option.some_inj] at hm
      subst hm
      simp only [List.mem_cons, List.not_mem_nil, or_false] at hr
      subst hr
      norm_num
  have hUsd : ∀ a ∈ nonnegVault.state.allocation,
      0 ≤ a.supplyAssetsUsd.getD 0 := by
    intro a ha
    simp only [nonnegVault, List.mem_cons, List.not_mem_nil, or_false] at ha
    subst ha
    norm_num
  exact ⟨hApr, hUsd, calculateTotalRewardsApr_nonneg nonnegVault hApr hUsd⟩

/--
The alert-cooldown state shared by both monitors: `lastAlertTime` is set to
`0` in the constructor and holds the epoch-milliseconds of the last actual
dispatch.
-/
structure AlertState where
  lastAlertTime : ℤ
  deriving DecidableEq, Repr

/-- The state created by the monitor constructors: `this.lastAlertTime = 0`. -/
def initialAlertState : AlertState := { lastAlertTime := 0 }

/--
Embedding of `logAlert` (identical logic in both monitors): given the
configured cooldown and the current time, if
`currentTime - lastAlertTime < alertCooldown` the dispatch is suppressed and
the state is unchanged; otherwise the message is dispatched and
`lastAlertTime` is set to the current time.  The returned Bool records
whether a dispatch happened.
-/
def logAlertStep (cooldown now : ℤ) (s : AlertState) : Bool × AlertState :=
  if now - s.lastAlertTime < cooldown then (false, s)
  else (true, { lastAlertTime := now })

/--
Running `logAlert` over a sequence of trigger-worthy cycle times, counting
the dispatches that actually happen.
-/
def countDispatches (cooldown : ℤ) : List ℤ → AlertState → ℕ
  | [], _ => 0
  | t :: ts, s =>
    let r := logAlertStep cooldown t s
    (if r.1 then 1 else 0) + countDispatches cooldown ts r.2

/--
Claim C4: dispatch is suppressed exactly when `now - lastAlertTime <
cooldown`, `lastAlertTime` is updated only on an actual dispatch, and with
cooldown 600000 ms two trigger-worthy cycles 200000 ms apart produce exactly
one dispatch while two cycles 700000 ms apart produce two (for wall-clock
times at least one cooldown past the epoch-zero initial state, as
`Date.now()` always is).
-/
theorem logAlert_cooldown_discipline (t0 : ℤ) (h : 600000 ≤ t0) :
    (∀ cooldown now : ℤ, ∀ s : AlertState,
      now - s.lastAlertTime < cooldown →
        logAlertStep cooldown now s = (false, s)) ∧
    (∀ cooldown now : ℤ, ∀ s : AlertState,
      cooldown ≤ now - s.lastAlertTime →
        logAlertStep cooldown now s = (true, { lastAlertTime := now })) ∧
    countDispatches 600000 [t0, t0 + 200000] initialAlertState = 1 ∧
    countDispatches 600000 [t0, t0 + 700000] initialAlertState = 2 := by
  have e1 : logAlertStep 600000 t0 initialAlertState
      = (true, { lastAlertTime := t0 }) := by
    simp only [logAlertStep, initialAlertState]
    rw [if_neg (by omega : ¬ (t0 - 0 < 600000))]
  have e2 : logAlertStep 600000 (t0 + 200000) { lastAlertTime := t0 }
      = (false, { lastAlertTime := t0 }) := by
    simp only [logAlertStep]
    rw [if_pos (by omega : t0 + 200000 - t0 < 600000)]
  have e3 : logAlertStep 600000 (t0 + 700000) { lastAlertTime := t0 }
      = (true, { lastAlertTime := t0 + 700000 }) := by
    simp only [logAlertStep]
    rw [if_neg (by omega : ¬ (t0 + 700000 - t0 < 600000))]
  refine ⟨?_, ?_, ?_, ?_⟩
  · intro cooldown now s hlt
    simp [logAlertStep, hlt]
  · intro cooldown now s hge
    simp [logAlertStep, not_lt.2 hge]
  · simp [countDispatches, e1, e2]
  · simp [countDispatches, e1, e3]

/--
Witness for claim C4: at `t0 = 1000000` the hypothesis holds, the two cycles
200000 ms apart dispatch once, and the two cycles 700000 ms apart dispatch
twice.
-/
theorem logAlert_cooldown_discipline_witness :
    (600000 : ℤ) ≤ 1000000 ∧
    countDispatches 600000 [1000000, 1000000 + 200000] initialAlertState = 1 ∧
    countDispatches 600000 [1000000, 1000000 + 700000] initialAlertState = 2 :=
  ⟨by norm_num,
    (logAlert_cooldown_discipline 1000000 (by norm_num)).2.2.1,
    (logAlert_cooldown_discipline 1000000 (by norm_num)).2.2.2⟩

/--
The cross-cycle state of `VaultMonitor`: the previous cycle's total net APYs
of the two vaults, `null` until a first successful cycle has run.
-/
structure VaultMonitorState where
  lastVault1NetApy : Option ℚ
  lastVault2NetApy : Option ℚ
  deriving DecidableEq, Repr

/--
The state created by the `VaultMonitor` constructor:
`this.lastVault1NetApy = null; this.lastVault2NetApy = null`.
-/
def initialVaultMonitorState : VaultMonitorState :=
  { lastVault1NetApy := none, lastVault2NetApy := none }

/--
The `apyChanged` flag of one `monitorVaults` cycle: computed only when both
stored baselines are non-null, and set when either vault's total net APY
moved by strictly more than `0.0001` since the previous cycle.
-/
def apyChanged (s : VaultMonitorState) (vault1NetApy vault2NetApy : ℚ) :
    Bool :=
  match s.lastVault1NetApy, s.lastVault2NetApy with
  | some l1, some l2 =>
      decide (1/10000 < |vault1NetApy - l1|)
        || decide (1/10000 < |vault2NetApy - l2|)
  | _, _ => false

/--
Embedding of the alert decision of one successful `monitorVaults` cycle:
given the configured APY difference threshold, the stored state and the two
vaults' total net APYs, returns whether an alert is attempted
(`absDiff >= APY_DIFF_THRESHOLD || apyChanged`) together with the new state,
which stores the current APYs unconditionally.
-/
def monitorVaultsStep (threshold : ℚ) (s : VaultMonitorState)
    (vault1NetApy vault2NetApy : ℚ) : Bool × VaultMonitorState :=
  ( decide (threshold ≤ |vault1NetApy - vault2NetApy|)
      || apyChanged s vault1NetApy vault2NetApy
  , { lastVault1NetApy := some vault1NetApy
    , lastVault2NetApy := some vault2NetApy } )

/--
Claim C5: on every successful vault-monitor cycle an alert is attempted if
and only if the absolute APY difference reaches the configured threshold, or
both baselines are present and either vault's total net APY moved by
strictly more than `0.0001` since the immediately preceding cycle; and the
stored baselines are updated to the current APYs on every cycle regardless
of whether an alert fired.
-/
theorem monitorVaults_alert_iff (threshold vault1NetApy vault2NetApy : ℚ)
    (s : VaultMonitorState) :
    ((monitorVaultsStep threshold s vault1NetApy vault2NetApy).1 = true ↔
      threshold ≤ |vault1NetApy - vault2NetApy| ∨
      (∃ l1 l2, s.lastVault1NetApy = some l1 ∧ s.lastVault2NetApy = some l2 ∧
        (1/10000 < |vault1NetApy - l1| ∨ 1/10000 < |vault2NetApy - l2|))) ∧
    (monitorVaultsStep threshold s vault1NetApy vault2NetApy).2
      = { lastVault1NetApy := some vault1NetApy
        , lastVault2NetApy := some vault2NetApy } := by
  refine ⟨?_, rfl⟩
  obtain ⟨l1, l2⟩ := s
  cases l1 with
  | none =>
    simp [monitorVaultsStep, apyChanged]
  | some a =>
    cases l2 with
    | none => simp [monitorVaultsStep, apyChanged]
    | some b => simp [monitorVaultsStep, apyChanged]

/--
Claim C10: on the first successful cycle, when both stored baselines are
still `null` from construction, change-detection cannot contribute: an alert
is attempted if and only if the absolute APY difference reaches the
configured threshold.
-/
theorem monitorVaults_first_cycle (threshold vault1NetApy vault2NetApy : ℚ) :
    (monitorVaultsStep threshold initialVaultMonitorState
        vault1NetApy vault2NetApy).1 = true
      ↔ threshold ≤ |vault1NetApy - vault2NetApy| := by
  simp [monitorVaultsStep, apyChanged, initialVaultMonitorState]

/--
The classification printed by the comparison section of
`fetchAndSaveVaults`: effectively-equal APYs with the first or second vault
recommended for its shorter timelock, identical APY and timelock, or a
higher total net APY on one side.
-/
inductive ComparisonOutcome where
  | equalShorterFirst
  | equalShorterSecond
  | identical
  | firstHigher
  | secondHigher
  deriving DecidableEq, Repr

/--
Embedding of the APY comparison at the end of `fetchAndSaveVaults`:
differences with `|totalNetApyDiff| < 0.00005` are treated as effectively
equal and broken by timelock (shorter wins; equal timelocks are
"identical"); otherwise the sign of the difference picks the winner.  The
Bool records whether the separate timelock comparison is reported, which
happens only when `|totalNetApyDiff| >= 0.00005` and the timelocks differ.
-/
def compareVaults (apy1 apy2 : ℚ) (timelock1 timelock2 : ℕ) :
    ComparisonOutcome × Bool :=
  let totalNetApyDiff := apy1 - apy2
  if |totalNetApyDiff| < 5/100000 then
    ( if timelock1 < timelock2 then ComparisonOutcome.equalShorterFirst
      else if timelock2 < timelock1 then ComparisonOutcome.equalShorterSecond
      else ComparisonOutcome.identical
    , false )
  else
    ( if 0 < totalNetApyDiff then ComparisonOutcome.firstHigher
      else ComparisonOutcome.secondHigher
    , decide (timelock1 ≠ timelock2) )

/--
Claim C6: the comparison classifies two vaults as effectively equal exactly
when `|totalNetApy_1 - totalNetApy_2| < 0.00005`; in that case the vault
with the strictly shorter timelock is recommended and equal timelocks are
reported as identical; otherwise the vault with the larger total net APY is
recommended, and the separate timelock comparison is reported exactly when
the timelocks differ.
-/
theorem compareVaults_classification (apy1 apy2 : ℚ) (t1 t2 : ℕ) :
    ((compareVaults apy1 apy2 t1 t2).1 = ComparisonOutcome.equalShorterFirst
      ↔ |apy1 - apy2| < 5/100000 ∧ t1 < t2) ∧
    ((compareVaults apy1 apy2 t1 t2).1 = ComparisonOutcome.equalShorterSecond
      ↔ |apy1 - apy2| < 5/100000 ∧ t2 < t1) ∧
    ((compareVaults apy1 apy2 t1 t2).1 = ComparisonOutcome.identical
      ↔ |apy1 - apy2| < 5/100000 ∧ t1 = t2) ∧
    ((compareVaults apy1 apy2 t1 t2).1 = ComparisonOutcome.firstHigher
      ↔ 5/100000 ≤ |apy1 - apy2| ∧ apy2 < apy1) ∧
    ((compareVaults apy1 apy2 t1 t2).1 = ComparisonOutcome.secondHigher
      ↔ 5/100000 ≤ |apy1 - apy2| ∧ apy1 < apy2) ∧
    ((compareVaults apy1 apy2 t1 t2).2 = true
      ↔ 5/100000 ≤ |apy1 - apy2| ∧ t1 ≠ t2) := by
  simp only [compareVaults]
  by_cases heq : |apy1 - apy2| < 5/100000
  · rw [if_pos heq]
    have hle : ¬ (5/100000 : ℚ) ≤ |apy1 - apy2| := not_le.2 heq
    by_cases h12 : t1 < t2
    · simp [h12, heq, hle, Nat.lt_asymm h12, Nat.ne_of_lt h12]
    · by_cases h21 : t2 < t1
      · simp [h12, h21, heq, hle]
        omega
      · have hteq : t1 = t2 := Nat.le_antisymm (Nat.le_of_not_lt h21)
          (Nat.le_of_not_lt h12)
        simp [h12, h21, heq, hle, hteq]
  · rw [if_neg heq]
    have hge : (5/100000 : ℚ) ≤ |apy1 - apy2| := not_lt.1 heq
    have hne : apy1 - apy2 ≠ 0 := by
      intro h0
      rw [h0] at hge
      norm_num at hge
    by_cases hpos : 0 < apy1 - apy2
    · have h21 : apy2 < apy1 := by linarith
      simp [hpos, hge, h21, not_lt.2 (le_of_lt h21)]
    · have h12 : apy1 < apy2 := by
        rcases lt_trichotomy (apy1 - apy2) 0 with h | h | h
        · linarith
        · exact absurd h hne
        · exact absurd h hpos
      simp [hpos, hge, h12, not_lt.2 (le_of_lt h12)]

/--
Embedding of the position alert trigger of `monitorPosition` in
`morphomonitor.js` (relative policy):
`currentLtv >= data.lltv * LTV_ALERT_THRESHOLD`, the threshold being a
fraction of the liquidation LTV.
-/
def alertTriggerRelative (currentLtv lltv threshold : ℚ) : Bool :=
  decide (lltv * threshold ≤ currentLtv)

/--
Embedding of the position alert trigger of `monitorPosition` in the second
monitor variant (absolute policy): `currentLtv >= LTV_ALERT_THRESHOLD`.
-/
def alertTriggerAbsolute (currentLtv threshold : ℚ) : Bool :=
  decide (threshold ≤ currentLtv)

/--
Claim C7: the repository carries both threshold policies — the relative
trigger fires exactly when `LTV >= lltv * thresholdFraction` and the
absolute trigger exactly when `LTV >= thresholdAbsolute` — and in the
scenario `borrowedAmount = 1000`, `borrowPrice = 1`, `collateralAmount = 1`,
`collateralPrice = 2000`, `lltv = 0.8` the LTV is `0.5` and no alert fires
under the relative policy with fraction `0.8`, since `0.5 < 0.64`.
-/
theorem alertTrigger_policies (currentLtv lltv threshold : ℚ) :
    (alertTriggerRelative currentLtv lltv threshold = true
      ↔ lltv * threshold ≤ currentLtv) ∧
    (alertTriggerAbsolute currentLtv threshold = true
      ↔ threshold ≤ currentLtv) ∧
    calculateLtv
      { borrowedAmount := 1000, collateralAmount := 1, collateralPrice := 2000,
        borrowPrice := 1, lltv := 4/5 } = JSVal.finite (1/2) ∧
    alertTriggerRelative (1/2) (4/5) (4/5) = false := by
  refine ⟨by simp [alertTriggerRelative], by simp [alertTriggerAbsolute],
    ?_, ?_⟩
  · norm_num [calculateLtv, jsDiv]
  · simp only [alertTriggerRelative, decide_eq_false_iff_not]
    norm_num

/--
Modelled from the source scheduler: both monitors run one immediate awaited
check and then `setInterval(monitor, CHECK_INTERVAL)`, so cycle `k` starts
at `k * interval` milliseconds after startup on the timer's fixed schedule —
`setInterval` fires regardless of whether the previous asynchronous
`monitor` call has completed.
-/
def cycleStartTime (interval k : ℕ) : ℕ := k * interval

/--
Cycle `k`, taking `duration` milliseconds to complete its fetch and alert
evaluation, is still running when cycle `k + 1` starts.
-/
def cyclesOverlap (interval duration k : ℕ) : Prop :=
  cycleStartTime interval (k + 1) < cycleStartTime interval k + duration

/--
Counterexample for claim C8 as stated: with a check interval of 300000 ms
(the position monitor default) and a cycle that takes 400000 ms, the
`setInterval`-driven schedule starts cycle 1 while cycle 0 is still running:
the source reschedules with a free-running timer, not by awaiting each cycle
to completion.
-/
theorem cyclesOverlap_at_long_cycle : cyclesOverlap 300000 400000 0 := by
  simp [cyclesOverlap, cycleStartTime]

/--
Claim C8 (amended): cycles are started by the free-running `setInterval`
timer at fixed multiples of the check interval regardless of prior cycle
completion, so consecutive cycles overlap exactly when a cycle's duration
exceeds the check interval; overlap is excluded only for cycles no longer
than the interval, not by the scheduler's structure.
-/
theorem cyclesOverlap_iff_slow_cycle (interval duration k : ℕ) :
    cyclesOverlap interval duration k ↔ interval < duration := by
  unfold cyclesOverlap cycleStartTime
  rw [add_mul, one_mul, add_lt_add_iff_left]
